import Mathlib

/-!
Verification development for the Cost Manager application: a shallow
embedding of its local store, rates provider, change notifier, report
aggregator, last-report cache, the add-cost form component and the
settings view, together with theorems about their contracts.

Monetary amounts and conversion rates are modelled as rationals (`ℚ`);
strings are Lean strings; fallible operations return `Except`/`Option`.
-/

namespace CostManager

/-! ## Modelling JavaScript string trimming

The form code calls `String.prototype.trim()`.  We model it directly on
the character list of a string: drop whitespace from the front, then
from the back. -/

/-- Whitespace characters recognised by the trim model (the ones a text
field can realistically contain). -/
def isJsWs (c : Char) : Bool :=
  c = ' ' || c = '\t' || c = '\n' || c = '\r'

/-- Trim on character lists: drop leading whitespace, then trailing
whitespace (by reversing, dropping, and reversing back). -/
def jsTrimList (l : List Char) : List Char :=
  ((l.dropWhile isJsWs).reverse.dropWhile isJsWs).reverse

/-- Model of JavaScript `s.trim()`. -/
def jsTrim (s : String) : String :=
  ⟨jsTrimList s.data⟩

theorem dropWhile_dropWhile {α : Type} (p : α → Bool) (l : List α) :
    (l.dropWhile p).dropWhile p = l.dropWhile p := by
  induction l with
  | nil => rfl
  | cons c t ih =>
    rw [List.dropWhile_cons]
    by_cases h : p c = true
    · simp [h, ih]
    · simp [h, List.dropWhile_cons]

theorem head?_dropWhile {α : Type} (p : α → Bool) (l : List α) (c : α)
    (h : (l.dropWhile p).head? = some c) : p c = false := by
  induction l with
  | nil => simp [List.dropWhile] at h
  | cons a t ih =>
    rw [List.dropWhile_cons] at h
    by_cases hp : p a = true
    · rw [if_pos hp] at h
      exact ih h
    · rw [if_neg hp] at h
      simp at h
      subst h
      exact Bool.eq_false_iff.mpr hp

theorem getLast?_cons_of_ne_nil {α : Type} (c : α) (l : List α) (h : l ≠ []) :
    (c :: l).getLast? = l.getLast? := by
  cases l with
  | nil => exact absurd rfl h
  | cons a t => exact List.getLast?_cons_cons

theorem getLast?_dropWhile {α : Type} (p : α → Bool) (l : List α)
    (h : l.dropWhile p ≠ []) : (l.dropWhile p).getLast? = l.getLast? := by
  induction l with
  | nil => simp [List.dropWhile] at h
  | cons a t ih =>
    rw [List.dropWhile_cons] at h ⊢
    by_cases hp : p a = true
    · rw [if_pos hp] at h ⊢
      have ht : t ≠ [] := by
        intro he
        rw [he] at h
        simp [List.dropWhile] at h
      rw [ih h, getLast?_cons_of_ne_nil a t ht]
    · rw [if_neg hp]

theorem dropWhile_eq_self_of_head {α : Type} (p : α → Bool) (l : List α)
    (h : ∀ c, l.head? = some c → p c = false) : l.dropWhile p = l := by
  cases l with
  | nil => rfl
  | cons a t =>
    have := h a (by rfl)
    rw [List.dropWhile_cons]
    simp [this]

theorem jsTrimList_idem (l : List Char) :
    jsTrimList (jsTrimList l) = jsTrimList l := by
  unfold jsTrimList
  have hA : ((((l.dropWhile isJsWs).reverse.dropWhile isJsWs).reverse).dropWhile isJsWs)
      = ((l.dropWhile isJsWs).reverse.dropWhile isJsWs).reverse := by
    apply dropWhile_eq_self_of_head
    intro c hc
    rw [List.head?_reverse] at hc
    have hx : (l.dropWhile isJsWs).reverse.dropWhile isJsWs ≠ [] := by
      intro he
      rw [he] at hc
      simp at hc
    rw [getLast?_dropWhile isJsWs _ hx, List.getLast?_reverse] at hc
    exact head?_dropWhile isJsWs l c hc
  rw [hA, List.reverse_reverse, dropWhile_dropWhile]

theorem jsTrim_idem (s : String) : jsTrim (jsTrim s) = jsTrim s := by
  show (⟨jsTrimList (jsTrimList s.data)⟩ : String) = ⟨jsTrimList s.data⟩
  rw [jsTrimList_idem]

/-! ## Data model -/

/-- Supported currencies (AddCostForm.jsx, `CURRENCIES`). -/
def CURRENCIES : List String := ["USD", "ILS", "GBP", "EURO"]

/-- Supported categories (AddCostForm.jsx, `CATEGORIES`). -/
def CATEGORIES : List String :=
  ["Food", "Car", "Education", "Home", "Health", "Leisure", "Other"]

/-- Creation timestamp, with the fields reporting needs. -/
structure Date where
  year : ℕ
  month : ℕ
  day : ℕ
deriving DecidableEq

/-- The tuple the form hands to `addCost`. -/
structure CostInput where
  sum : ℚ
  currency : String
  category : String
  description : String
deriving DecidableEq

/-- A persisted cost record: the input fields plus the assigned id and
the creation timestamp. -/
structure CostRecord where
  id : ℕ
  sum : ℚ
  currency : String
  category : String
  description : String
  createdAt : Date
deriving DecidableEq

/-- Modelled from the spec: the `CostEntry` invariant checked by the
Local Store's `addCost` (the store module itself is not under src/):
`sum > 0`, description non-blank after trimming, currency and category
members of their enumerated sets. -/
def isValidInput (e : CostInput) : Bool :=
  decide (0 < e.sum) && decide (jsTrim e.description ≠ "")
    && decide (e.currency ∈ CURRENCIES) && decide (e.category ∈ CATEGORIES)

/-! ## Local Store (modelled from the spec) -/

/-- Events published on the change-notifier bus. -/
inductive StoreEvent where
  | costAdded
  | cleared
deriving DecidableEq

/-- Errors of store operations. -/
inductive StoreError where
  | validationError
deriving DecidableEq

/-- Modelled from the spec: the Local Store state (the IndexedDB module
`idb.module.js` is not under src/): an id counter and the insertion-ordered
list of persisted records. -/
structure Store where
  nextId : ℕ
  records : List CostRecord

/-- Modelled from the spec: `addCost` validates the input; on failure it
returns `ValidationError` and leaves the store unchanged, firing no
event; on success it persists the record with a freshly assigned id and
the creation timestamp and fires `{type: "cost-added"}`.  Returns the
result, the updated store, and the fired events. -/
def addCost (e : CostInput) (now : Date) (st : Store) :
    Except StoreError CostRecord × Store × List StoreEvent :=
  if isValidInput e then
    let r : CostRecord :=
      ⟨st.nextId, e.sum, e.currency, e.category, e.description, now⟩
    (.ok r, ⟨st.nextId + 1, st.records ++ [r]⟩, [.costAdded])
  else
    (.error .validationError, st, [])

/-- Modelled from the spec: `getAllCosts` returns the full
insertion-ordered sequence of persisted records. -/
def getAllCosts (st : Store) : List CostRecord :=
  st.records

/-- Store well-formedness: every persisted id is below the id counter,
so freshly assigned ids are unique.  Holds initially and is preserved by
`addCost`. -/
def StoreWF (st : Store) : Prop :=
  ∀ r ∈ st.records, r.id < st.nextId

/-- The empty store of a fresh session. -/
def emptyStore : Store :=
  ⟨0, []⟩

theorem emptyStore_WF : StoreWF emptyStore := by
  intro r hr
  simp [emptyStore] at hr

/-- C1: for every valid `CostEntry` input and well-formed store,
`addCost` succeeds firing `cost-added`, and `getAllCosts` afterwards is
the old sequence with the new record appended, so the new entry occurs
exactly once; its `sum`, `currency`, `category`, `description` equal the
input values and its freshly assigned id differs from the id of every
other stored entry. -/
theorem addCost_then_getAllCosts (e : CostInput) (now : Date) (st : Store)
    (hv : isValidInput e = true) (hwf : StoreWF st) :
    ∃ (r : CostRecord) (st' : Store),
      addCost e now st = (.ok r, st', [.costAdded]) ∧
      getAllCosts st' = getAllCosts st ++ [r] ∧
      r.sum = e.sum ∧ r.currency = e.currency ∧ r.category = e.category ∧
      r.description = e.description ∧
      (getAllCosts st').count r = 1 ∧
      (∀ r' ∈ getAllCosts st, r'.id ≠ r.id) ∧
      StoreWF st' := by
  refine ⟨⟨st.nextId, e.sum, e.currency, e.category, e.description, now⟩,
    ⟨st.nextId + 1, st.records ++ [⟨st.nextId, e.sum, e.currency, e.category, e.description, now⟩]⟩,
    ?_, ?_, rfl, rfl, rfl, rfl, ?_, ?_, ?_⟩
  · simp [addCost, hv]
  · rfl
  · have hnotmem :
        (⟨st.nextId, e.sum, e.currency, e.category, e.description, now⟩ : CostRecord)
          ∉ st.records := by
      intro hmem
      have := hwf _ hmem
      simp at this
    simp [getAllCosts, List.count_append, List.count_eq_zero.mpr hnotmem]
  · intro r' hr'
    have := hwf _ hr'
    simp [getAllCosts] at hr'
    exact Nat.ne_of_lt (hwf _ hr')
  · intro r hr
    simp [getAllCosts] at hr
    rcases hr with hr | hr
    · exact Nat.lt_succ_of_lt (hwf _ hr)
    · rw [hr]
      exact Nat.lt_succ_self _

/-- A concrete valid input used by witnesses. -/
def sampleInput : CostInput :=
  ⟨5, "USD", "Food", "lunch"⟩

/-- A concrete timestamp used by witnesses. -/
def sampleDate : Date :=
  ⟨2025, 10, 12⟩

/-- Witness for C1 at a concrete valid input on the empty store. -/
theorem addCost_then_getAllCosts_witness :
    ∃ (r : CostRecord) (st' : Store),
      addCost sampleInput sampleDate emptyStore = (.ok r, st', [.costAdded]) ∧
      getAllCosts st' = getAllCosts emptyStore ++ [r] ∧
      r.sum = sampleInput.sum ∧ r.currency = sampleInput.currency ∧
      r.category = sampleInput.category ∧
      r.description = sampleInput.description ∧
      (getAllCosts st').count r = 1 ∧
      (∀ r' ∈ getAllCosts emptyStore, r'.id ≠ r.id) ∧
      StoreWF st' :=
  addCost_then_getAllCosts sampleInput sampleDate emptyStore (by decide) emptyStore_WF

/-- C2: for every invalid input — non-positive sum, blank description
after trimming, or a currency or category outside the enumerated sets —
`addCost` fails with `ValidationError`, fires no event, and leaves the
store (hence its record count) unchanged. -/
theorem addCost_rejects_invalid (e : CostInput) (now : Date) (st : Store)
    (h : e.sum ≤ 0 ∨ jsTrim e.description = "" ∨
         e.currency ∉ CURRENCIES ∨ e.category ∉ CATEGORIES) :
    addCost e now st = (.error .validationError, st, []) ∧
    (getAllCosts (addCost e now st).2.1).length = (getAllCosts st).length := by
  have hv : isValidInput e = false := by
    rcases h with h | h | h | h
    · simp [isValidInput, not_lt.mpr h]
    · simp [isValidInput, h]
    · simp [isValidInput, h]
    · simp [isValidInput, h]
  refine ⟨?_, ?_⟩
  · simp [addCost, hv]
  · simp [addCost, hv]

/-- Witness for C2 at a concrete invalid input (sum = 0). -/
theorem addCost_rejects_invalid_witness :
    addCost ⟨0, "USD", "Food", "x"⟩ sampleDate emptyStore
        = (.error .validationError, emptyStore, []) ∧
    (getAllCosts (addCost ⟨0, "USD", "Food", "x"⟩ sampleDate emptyStore).2.1).length
        = (getAllCosts emptyStore).length :=
  addCost_rejects_invalid ⟨0, "USD", "Food", "x"⟩ sampleDate emptyStore
    (Or.inl (by norm_num))

/-! ## Rates table and currency conversion (modelled from the spec) -/

/-- A rates table: currency code to conversion factor relative to a
fixed base currency. -/
abbrev RatesTable := List (String × ℚ)

/-- Look up the conversion factor for a currency code. -/
def lookupRate (rt : RatesTable) (code : String) : Option ℚ :=
  (rt.find? (fun p => p.1 == code)).map (fun p => p.2)

/-- Modelled from the spec: conversion through the shared base currency
(the exchange-rates module is not under src/):
`amount * rate[target] / rate[source]`; `none` when either rate is
missing (`MissingRateError`). -/
def convert (amount : ℚ) (source target : String) (rt : RatesTable) : Option ℚ :=
  match lookupRate rt source, lookupRate rt target with
  | some rs, some rtgt => some (amount * rtgt / rs)
  | _, _ => none

/-- The aggregated report: per-category subtotals over the fixed
category list and a grand total, keyed by period and display currency. -/
structure ReportSummary where
  year : ℕ
  month : Option ℕ
  displayCurrency : String
  categoryTotals : List (String × ℚ)
  total : ℚ
deriving DecidableEq

/-- Aggregator failure. -/
inductive AggError where
  | missingRate
deriving DecidableEq

/-- Does a record's creation date fall in the requested period?  An
omitted month aggregates the whole year. -/
def inPeriod (year : ℕ) (month : Option ℕ) (r : CostRecord) : Bool :=
  r.createdAt.year == year &&
    (match month with
     | none => true
     | some m => r.createdAt.month == m)

/-- Convert one record's sum into the display currency. -/
def convertCost (rt : RatesTable) (display : String) (r : CostRecord) : Option ℚ :=
  convert r.sum r.currency display rt

/-- Modelled from the spec: `buildReport` filters the costs to the
period, converts each sum into the display currency via the rates
table, and accumulates per-category subtotals and a grand total with no
intermediate rounding; it fails with `MissingRateError` when the
display currency or any filtered entry's currency is absent. -/
def buildReport (costs : List CostRecord) (year : ℕ) (month : Option ℕ)
    (display : String) (rt : RatesTable) : Except AggError ReportSummary :=
  let filtered := costs.filter (inPeriod year month)
  if (lookupRate rt display).isNone then .error .missingRate
  else if filtered.any (fun r => (lookupRate rt r.currency).isNone) then
    .error .missingRate
  else
    let conv := fun r => (convertCost rt display r).getD 0
    .ok { year := year, month := month, displayCurrency := display,
          categoryTotals := CATEGORIES.map (fun cat =>
            (cat, ((filtered.filter (fun r => r.category == cat)).map conv).sum)),
          total := (filtered.map conv).sum }

/-- The rates table of the spec's scenario:
`{USD:1, ILS:3.5, GBP:0.8, EURO:0.9}` with base USD. -/
def demoRates : RatesTable :=
  [("USD", 1), ("ILS", 7/2), ("GBP", 4/5), ("EURO", 9/10)]

/-- The two entries of the spec's scenario, placed in October 2025. -/
def demoEntries : List CostRecord :=
  [⟨0, 100, "USD", "Food", "groceries", ⟨2025, 10, 3⟩⟩,
   ⟨1, 35, "ILS", "Food", "snack", ⟨2025, 10, 7⟩⟩]

/-- C3: conversion follows `amount * rate[target] / rate[source]`, and
on the scenario rates `{USD:1, ILS:3.5, GBP:0.8, EURO:0.9}` with the two
Food entries (100 USD and 35 ILS), `buildReport` in USD yields a Food
subtotal of 110 and a grand total of 110, with no intermediate
rounding. -/
theorem buildReport_formula_and_scenario :
    (∀ (amount rs rtgt : ℚ) (source target : String) (rt : RatesTable),
        lookupRate rt source = some rs → lookupRate rt target = some rtgt →
        convert amount source target rt = some (amount * rtgt / rs)) ∧
    (∃ s : ReportSummary,
        buildReport demoEntries 2025 (some 10) "USD" demoRates = .ok s ∧
        lookupRate s.categoryTotals "Food" = some 110 ∧
        s.total = 110) := by
  constructor
  · intro amount rs rtgt source target rt hs ht
    simp [convert, hs, ht]
  · refine ⟨_, rfl, ?_, ?_⟩ <;>
      simp [buildReport, demoEntries, demoRates, inPeriod, convertCost,
        convert, lookupRate, CATEGORIES, List.find?_cons, List.filter] <;>
      norm_num

/-- Witness for C3: the conversion formula applied to the scenario's
ILS entry gives 35 * 1 / 3.5. -/
theorem buildReport_formula_witness :
    convert 35 "ILS" "USD" demoRates = some (35 * 1 / (7/2)) :=
  buildReport_formula_and_scenario.1 35 (7/2) 1 "ILS" "USD" demoRates
    (by simp [lookupRate, demoRates, List.find?_cons])
    (by simp [lookupRate, demoRates, List.find?_cons])

/-- C6: converting an amount from currency A to B and the result back to
A with a fixed rates table returns the original amount exactly (hence
within any rounding tolerance), whenever both rates are present and
nonzero. -/
theorem convert_roundTrip (amount ra rb : ℚ) (A B : String) (rt : RatesTable)
    (hA : lookupRate rt A = some ra) (hB : lookupRate rt B = some rb)
    (ha : ra ≠ 0) (hb : rb ≠ 0) :
    ∃ mid, convert amount A B rt = some mid ∧
      convert mid B A rt = some amount := by
  refine ⟨amount * rb / ra, ?_, ?_⟩
  · simp [convert, hA, hB]
  · simp only [convert, hA, hB]
    congr 1
    field_simp

/-- Witness for C6: a USD amount converted to ILS and back on the
scenario rates. -/
theorem convert_roundTrip_witness :
    ∃ mid, convert 100 "USD" "ILS" demoRates = some mid ∧
      convert mid "ILS" "USD" demoRates = some 100 :=
  convert_roundTrip 100 1 (7/2) "USD" "ILS" demoRates
    (by simp [lookupRate, demoRates, List.find?_cons])
    (by simp [lookupRate, demoRates, List.find?_cons])
    (by norm_num) (by norm_num)

/-- C7: `buildReport` is deterministic and idempotent — two calls with
identical arguments return identical `ReportSummary` values; the
embedding is a pure function, so it has no side effects on any input or
external state. -/
theorem buildReport_deterministic (costs : List CostRecord) (year : ℕ)
    (month : Option ℕ) (display : String) (rt : RatesTable) :
    buildReport costs year month display rt
      = buildReport costs year month display rt :=
  rfl

/-! ## Rates Provider (modelled from the spec) -/

/-- A parsed JSON value, as far as rate validation needs to look. -/
inductive JsonVal where
  | num (q : ℚ)
  | str (s : String)
  | boolean (b : Bool)
  | null
deriving DecidableEq

/-- A response payload: either a JSON object (a list of key/value
fields) or something that is not an object at all. -/
inductive Payload where
  | obj (fields : List (String × JsonVal))
  | nonObj
deriving DecidableEq

/-- Look up a top-level field of a JSON object. -/
def lookupField (fields : List (String × JsonVal)) (k : String) : Option JsonVal :=
  (fields.find? (fun p => p.1 == k)).map (fun p => p.2)

/-- The numeric value of a top-level field, if the field exists and is
numeric. -/
def numericAt (fields : List (String × JsonVal)) (k : String) : Option ℚ :=
  match lookupField fields k with
  | some (.num q) => some q
  | _ => none

/-- Is the payload a JSON object with numeric conversion factors for
exactly the four supported currency codes? -/
def wellFormedRates (p : Payload) : Bool :=
  match p with
  | .nonObj => false
  | .obj fields =>
    CURRENCIES.all (fun c => (numericAt fields c).isSome)
      && fields.all (fun f => decide (f.1 ∈ CURRENCIES))

/-- Modelled from the spec: extraction of the `RatesTable` from a
response payload; `none` when the structure does not match (missing
currency keys, non-numeric values, or a non-object payload). -/
def parseRates (p : Payload) : Option RatesTable :=
  match p with
  | .nonObj => none
  | .obj fields =>
    match numericAt fields "USD", numericAt fields "ILS",
        numericAt fields "GBP", numericAt fields "EURO" with
    | some u, some i, some g, some e =>
      if fields.all (fun f => decide (f.1 ∈ CURRENCIES)) then
        some [("USD", u), ("ILS", i), ("GBP", g), ("EURO", e)]
      else none
    | _, _, _, _ => none

/-- Errors of the rates fetch. -/
inductive FetchError where
  | networkError (msg : String)
  | invalidRatesFormat
deriving DecidableEq

/-- The Rates Provider's persistent state: the optional URL override
and the currently active rates table, if any. -/
structure RatesProviderState where
  ratesURL : Option String
  current : Option RatesTable
deriving DecidableEq

/-- Modelled from the spec: `fetchRates` against a response — a
transport failure carries its message, otherwise the payload is parsed
and validated.  On success the parsed table atomically replaces the
provider's current table; on any failure the previous table stays
active. -/
def fetchRates (response : Except String Payload) (st : RatesProviderState) :
    Except FetchError RatesTable × RatesProviderState :=
  match response with
  | .error msg => (.error (.networkError msg), st)
  | .ok payload =>
    match parseRates payload with
    | none => (.error .invalidRatesFormat, st)
    | some table => (.ok table, { st with current := some table })

theorem parseRates_eq_none_of_not_wellFormed (p : Payload)
    (h : wellFormedRates p = false) : parseRates p = none := by
  cases p with
  | nonObj => rfl
  | obj fields =>
    simp only [wellFormedRates, Bool.and_eq_false_iff, List.all_eq_false] at h
    unfold parseRates
    cases hu : numericAt fields "USD" <;>
      cases hi : numericAt fields "ILS" <;>
        cases hg : numericAt fields "GBP" <;>
          cases he : numericAt fields "EURO" <;>
            simp_all [CURRENCIES]

/-- C4: for every response payload that is not a JSON object with
numeric conversion factors for exactly the four supported currency
codes, `fetchRates` fails with `InvalidRatesFormatError` and the
provider state — in particular the previously active rates table —
is unchanged. -/
theorem fetchRates_rejects_malformed (p : Payload) (st : RatesProviderState)
    (h : wellFormedRates p = false) :
    fetchRates (.ok p) st = (.error .invalidRatesFormat, st) := by
  simp [fetchRates, parseRates_eq_none_of_not_wellFormed p h]

/-- The scenario payload `{"USD": 1, "GBP": 0.8}`, missing ILS and
EURO. -/
def missingKeysPayload : Payload :=
  .obj [("USD", .num 1), ("GBP", .num (4/5))]

/-- Witness for C4: the scenario payload missing ILS and EURO is
rejected and the previously active demo table stays current. -/
theorem fetchRates_rejects_malformed_witness :
    fetchRates (.ok missingKeysPayload) ⟨none, some demoRates⟩
      = (.error .invalidRatesFormat, ⟨none, some demoRates⟩) :=
  fetchRates_rejects_malformed missingKeysPayload ⟨none, some demoRates⟩
    (by simp [wellFormedRates, missingKeysPayload, numericAt, lookupField,
          CURRENCIES, List.find?_cons])

/-! ## Change Notifier (modelled from the spec) -/

/-- A registered listener, identified by name: on an event it either
runs to completion or throws (`throws ev = true`). -/
structure Listener where
  name : String
  throws : StoreEvent → Bool

/-- Modelled from the spec: `notify` synchronously invokes every
currently registered listener in registration order; a listener that
throws has its error caught and logged, and the remaining listeners
still run.  Returns the names of the invoked listeners in invocation
order and the names whose errors were logged. -/
def notify (ls : List Listener) (ev : StoreEvent) : List String × List String :=
  match ls with
  | [] => ([], [])
  | l :: rest =>
    let tail := notify rest ev
    if l.throws ev then (l.name :: tail.1, l.name :: tail.2)
    else (l.name :: tail.1, tail.2)

/-- C8: `notify` invokes all currently registered listeners in
registration order; this holds whatever each listener's throwing
behaviour is, so a listener that throws never prevents a
later-registered listener from being invoked with the same event. -/
theorem notify_invokes_all_in_order (ls : List Listener) (ev : StoreEvent) :
    (notify ls ev).1 = ls.map (fun l => l.name) := by
  induction ls with
  | nil => rfl
  | cons l rest ih =>
    unfold notify
    by_cases h : l.throws ev = true <;> simp [h, ih]

/-! ## Last-Report Cache (modelled from the spec) -/

/-- The defined empty sentinel returned when no report was ever
saved: zero subtotals for every category and a zero grand total. -/
def emptyReportSentinel : ReportSummary :=
  { year := 0, month := none, displayCurrency := "",
    categoryTotals := CATEGORIES.map (fun c => (c, 0)), total := 0 }

/-- Modelled from the spec: `saveLastReport` overwrites the single
cached snapshot with the given summary. -/
def saveLastReport (s : ReportSummary) (_cache : Option ReportSummary) :
    Option ReportSummary :=
  some s

/-- Modelled from the spec: `loadLastReport` returns the previously
saved summary, or the defined empty sentinel when none exists; it is
total, so absence never makes it fail. -/
def loadLastReport (cache : Option ReportSummary) : ReportSummary :=
  cache.getD emptyReportSentinel

/-- C9: `loadLastReport` never fails on absence — on a fresh cache it
returns the defined empty sentinel, and after any `saveLastReport` it
returns the most recently saved summary. -/
theorem loadLastReport_total :
    loadLastReport none = emptyReportSentinel ∧
    ∀ (s : ReportSummary) (cache : Option ReportSummary),
      loadLastReport (saveLastReport s cache) = s :=
  ⟨rfl, fun _ _ => rfl⟩

/-! ## AddCostForm (embedded from src/src/components/AddCostForm.jsx) -/

/-- Numeric value of a digit list, most significant first. -/
def natOfDigits (cs : List Char) : ℕ :=
  cs.foldl (fun n c => n * 10 + (c.toNat - 48)) 0

/-- Parse an unsigned decimal literal (digits, optionally a dot and
more digits); `none` when the characters are not such a literal. -/
def parseUnsigned (cs : List Char) : Option ℚ :=
  let intPart := cs.takeWhile Char.isDigit
  match cs.drop intPart.length with
  | [] => if intPart.isEmpty then none else some (natOfDigits intPart)
  | '.' :: frac =>
    if frac.all Char.isDigit && (!intPart.isEmpty || !frac.isEmpty) then
      some ((natOfDigits intPart : ℚ) + (natOfDigits frac : ℚ) / (10 : ℚ) ^ frac.length)
    else none
  | _ => none

/-- Model of JavaScript `Number()` on the strings a numeric form field
produces: surrounding whitespace is ignored, the empty string is 0, a
signed decimal literal is its value, anything else is NaN (`none`). -/
def jsNumber (s : String) : Option ℚ :=
  match jsTrimList s.data with
  | [] => some 0
  | '-' :: rest => (parseUnsigned rest).map (fun q => -q)
  | '+' :: rest => parseUnsigned rest
  | cs => parseUnsigned cs

/-- The controlled form state of AddCostForm (the `sum` field holds the
raw input text). -/
structure FormState where
  sum : String
  currency : String
  category : String
  description : String
deriving DecidableEq

/-- Embedding of `validateForm` (AddCostForm.jsx): the sum text must be
non-empty and parse to a positive number, the description must be
non-blank after trimming; returns the error message, or `""` when
valid. -/
def validateForm (form : FormState) : String :=
  let numericSum := jsNumber form.sum
  if form.sum = "" ∨ numericSum = none ∨ numericSum.getD 0 ≤ 0 then
    "Sum must be a positive number"
  else if jsTrim form.description = "" then
    "Description is required"
  else ""

/-- Embedding of `handleSubmit` (AddCostForm.jsx), restricted to the
payload it hands to `addCost`: `none` when validation failed (no call),
otherwise the payload with the numeric sum and the trimmed
description. -/
def handleSubmit (form : FormState) : Option CostInput :=
  if validateForm form ≠ "" then none
  else
    some { sum := (jsNumber form.sum).getD 0, currency := form.currency,
           category := form.category, description := jsTrim form.description }

/-- C5: `handleSubmit` calls `addCost` exactly when `validateForm`
returns the empty string — i.e. when `Number(form.sum)` is a positive
number and the description is non-blank after trimming — and the
payload carries the numeric sum and the trimmed description; since the
currency and category selectors only offer the enumerated values, no
entry violating the `CostEntry` invariant is handed to storage through
this path. -/
theorem handleSubmit_validated (form : FormState)
    (hcur : form.currency ∈ CURRENCIES) (hcat : form.category ∈ CATEGORIES) :
    ((handleSubmit form).isSome ↔ validateForm form = "") ∧
    ∀ p, handleSubmit form = some p →
      (∃ q, jsNumber form.sum = some q ∧ 0 < q ∧ p.sum = q) ∧
      p.description = jsTrim form.description ∧
      p.currency = form.currency ∧ p.category = form.category ∧
      isValidInput p = true := by
  constructor
  · unfold handleSubmit
    by_cases h : validateForm form = "" <;> simp [h]
  · intro p hp
    unfold handleSubmit at hp
    by_cases h : validateForm form = ""
    · rw [if_neg (by simp [h])] at hp
      unfold validateForm at h
      by_cases h1 : form.sum = "" ∨ jsNumber form.sum = none ∨
          (jsNumber form.sum).getD 0 ≤ 0
      · rw [if_pos h1] at h
        simp at h
      · rw [if_neg h1] at h
        by_cases h2 : jsTrim form.description = ""
        · rw [if_pos h2] at h
          simp at h
        · push_neg at h1
          obtain ⟨-, hn, hpos⟩ := h1
          obtain ⟨q, hq⟩ := Option.ne_none_iff_exists'.mp hn
          rw [hq] at hpos
          simp at hpos
          simp at hp
          refine ⟨⟨q, hq, hpos, ?_⟩, ?_, ?_, ?_, ?_⟩ <;>
            rw [← hp] <;>
            simp [hq, isValidInput, hpos, jsTrim_idem, h2, hcur, hcat]
    · rw [if_pos h] at hp
      exact absurd hp (by simp)

/-- A concrete form state used by the C5 witness: sum text `"5"`,
description with surrounding blanks. -/
def sampleForm : FormState :=
  ⟨"5", "USD", "Food", " lunch "⟩

/-- Witness for C5 at the concrete form state: submission goes through
and the stored payload satisfies the `CostEntry` invariant. -/
theorem handleSubmit_validated_witness :
    handleSubmit sampleForm = some ⟨5, "USD", "Food", "lunch"⟩ ∧
    isValidInput ⟨5, "USD", "Food", "lunch"⟩ = true := by
  have h := handleSubmit_validated sampleForm (by decide) (by decide)
  have hs : handleSubmit sampleForm = some ⟨5, "USD", "Food", "lunch"⟩ := by
    simp [handleSubmit, validateForm, jsNumber, jsTrim, jsTrimList, isJsWs,
      sampleForm, parseUnsigned, natOfDigits]
  exact ⟨hs, ((h.2 _ hs).2.2.2.2)⟩

/-! ## SettingsView (embedded from the settings source file) -/

/-- Outcome of the test fetch `handleSave` performs after persisting
the URL. -/
inductive FetchOutcome where
  | ok (data : RatesTable)
  | fail (e : FetchError)
deriving DecidableEq

/-- The settings view state: the text field value, the persisted URL
override, and the component's `rates` and `error` state. -/
structure SettingsState where
  url : String
  persistedRatesURL : Option String
  rates : Option RatesTable
  error : Option String
deriving DecidableEq

/-- The user-facing message `handleSave` shows for each failure
(SettingsView.jsx: the invalid-structure message is recognised by its
text, other errors surface their own message). -/
def errorText (e : FetchError) : String :=
  match e with
  | .invalidRatesFormat =>
    "The API you provided returned an unsupported format. Please use a valid URL that provides rates in JSON format with USD, GBP, EURO and ILS."
  | .networkError msg => msg

/-- Embedding of `setRatesURL`: persist the override. -/
def setRatesURL (u : String) (_persisted : Option String) : Option String :=
  some u

/-- Embedding of `handleSave` (SettingsView.jsx): first persists the
URL via `setRatesURL`, then runs the test fetch; on success it stores
the rates and clears the error, on failure it records the message and
clears the rates — the persisted URL is not rolled back. -/
def handleSave (s : SettingsState) (outcome : FetchOutcome) : SettingsState :=
  let persisted := setRatesURL s.url s.persistedRatesURL
  match outcome with
  | .ok data =>
    { s with persistedRatesURL := persisted, rates := some data, error := none }
  | .fail e =>
    { s with persistedRatesURL := persisted, rates := none,
             error := some (errorText e) }

/-- C10: `handleSave` persists the URL override before attempting the
test fetch, so after a failing fetch (network or format error) the
persisted override still holds the new URL — the failure does not roll
it back; and indeed the override is the new URL after every outcome. -/
theorem handleSave_persists_url (s : SettingsState) (e : FetchError) :
    (handleSave s (.fail e)).persistedRatesURL = some s.url ∧
    (handleSave s (.fail e)).rates = none ∧
    (handleSave s (.fail e)).error = some (errorText e) ∧
    ∀ outcome, (handleSave s outcome).persistedRatesURL = some s.url := by
  refine ⟨rfl, rfl, rfl, ?_⟩
  intro outcome
  cases outcome <;> rfl

end CostManager
